import Mathlib

/-!
Shallow embedding of the time_tracker repository core:

- `src/core/tracker_service.py` (class TimeTrackerService): the activity
  segmentation engine and polling loop. Python mutable attributes
  (last_app_name, last_window_title, current_activity_start_time, running)
  become an explicit `ServiceState`; the database insertions performed by
  data_store.log_activity become an append-only `log` list inside the state.
  Times are modelled as integers (seconds), so the Python int() truncation
  of a float difference is the identity. A Python exception raised by a
  store append is modelled by returning `Except.error` carrying the state
  at the point of the raise.

- `src/core/data_store.py` (get_activity_summary): the SQLite table
  activity_log becomes a list of `DBRow`; the SQL SELECT with the
  +8 hours datetime shift, the local-day WHERE filter, ORDER BY timestamp
  DESC and LIMIT become map / filter / insertion-sort / take.
-/

namespace TimeTracker

/-- One row inserted into activity_log by data_store.log_activity when the
engine closes a segment. app_name and window_title are nullable TEXT columns,
hence `Option String`. -/
structure LoggedActivity where
  app : Option String
  title : Option String
  duration : Int
  activityType : String
deriving DecidableEq, Repr

/-- The mutable attributes of TimeTrackerService together with the rows the
service has written to the store, in insertion order. -/
structure ServiceState where
  running : Bool
  lastApp : Option String
  lastTitle : Option String
  startTime : Option Int
  log : List LoggedActivity
deriving DecidableEq, Repr

/-- The state of a freshly constructed TimeTrackerService: last_app_name,
last_window_title and current_activity_start_time are all None, nothing has
been written. -/
def initState : ServiceState :=
  { running := false, lastApp := none, lastTitle := none,
    startTime := none, log := [] }

/-- Python truthiness of self.current_activity_start_time: None and 0 are
falsy, every other number is truthy. -/
def startTruthy : Option Int → Bool
  | none => false
  | some t => t != 0

/-- First half of TimeTrackerService._update_activity: the guarded close of
the previous segment. When a segment is open (truthy start time, non-null
last_app_name) and its integer duration now - start is positive, the row is
appended through data_store.log_activity; a raise from that call is the
error case and carries the state at the raise (nothing inserted, identity
attributes not yet reassigned). Otherwise the log is unchanged. -/
def closeSegment (st : ServiceState) (now : Int) (storeOk : Bool) :
    Except ServiceState (List LoggedActivity) :=
  match st.startTime, st.lastApp with
  | some start, some lastA =>
    if start ≠ 0 then
      if now - start > 0 then
        if storeOk then
          .ok (st.log ++ [⟨some lastA, st.lastTitle, now - start, "general"⟩])
        else .error st
      else .ok st.log
    else .ok st.log
  | _, _ => .ok st.log

/-- TimeTrackerService._update_activity: close the previous segment as
above, then start tracking the new identity, substituting UnknownApp and
UnknownTitle for null fields and resetting the start time to now. The
`storeOk` flag says whether the data_store.log_activity call, if reached,
succeeds on this occasion. -/
def updateActivity (st : ServiceState) (app title : Option String)
    (now : Int) (storeOk : Bool) : Except ServiceState ServiceState :=
  match closeSegment st now storeOk with
  | .error e => .error e
  | .ok log' =>
    .ok { st with
      lastApp := some (app.getD "UnknownApp"),
      lastTitle := some (title.getD "UnknownTitle"),
      startTime := some now,
      log := log' }

/-- TimeTrackerService._handle_no_window_info: a degraded observation is
turned into a transition to the Unknown/Error sentinel, unless the engine is
already in that state, in which case nothing happens. -/
def handleNoWindowInfo (st : ServiceState) (now : Int) (storeOk : Bool) :
    Except ServiceState ServiceState :=
  if st.lastApp ≠ some "Unknown/Error" then
    updateActivity st (some "Unknown/Error")
      (some "Could not retrieve window info") now storeOk
  else .ok st

/-- One iteration of the while-loop body of TimeTrackerService.run: the
observation returned by activity_monitor.get_active_window_info for this
tick, the time at which the tick runs, whether a store append issued during
the tick would succeed, and whether stop() is called before the loop next
tests self.running (stop may arrive at any point during the sleep; testing
the flag happens only at the top of the loop, so this is the general case). -/
structure Tick where
  app : Option String
  title : Option String
  now : Int
  storeOk : Bool
  stopAfter : Bool
deriving DecidableEq, Repr

/-- The three-way branch inside the while loop of TimeTrackerService.run:
degraded observation, changed observation, unchanged observation. -/
def processTick (st : ServiceState) (t : Tick) :
    Except ServiceState ServiceState :=
  match t.app with
  | none => handleNoWindowInfo st t.now t.storeOk
  | some a =>
    if some a ≠ st.lastApp ∨ t.title ≠ st.lastTitle then
      updateActivity st (some a) t.title t.now t.storeOk
    else .ok st

/-- Effect of a stop() call arriving during the sleep of this tick: the running
flag is cleared, nothing else happens. -/
def applyStop (st : ServiceState) (t : Tick) : ServiceState :=
  if t.stopAfter then { st with running := false } else st

/-- The while-loop of TimeTrackerService.run over a given prefix of ticks.
An exception escaping the loop body leaves the while statement at once; the
surrounding handler in run catches it (logging only), so here the loop
returns the state carried by the error and ignores the remaining ticks.
Exhausting the tick list with running still true models the loop being
interrupted during its sleep (KeyboardInterrupt), which the handler in run
also catches. -/
def runLoop : ServiceState → List Tick → ServiceState
  | st, [] => st
  | st, t :: ts =>
    if st.running then
      match processTick st t with
      | .ok st' => runLoop (applyStop st' t) ts
      | .error st' => st'
    else st

/-- Outcome of the initial activity_monitor.get_active_window_info call at
the top of TimeTrackerService.run: either a pair (possibly with null
fields), or a raised exception carrying a message. -/
inductive InitialFetch where
  | got (app title : Option String)
  | raised (msg : String)
deriving DecidableEq, Repr

/-- The bootstrap phase of TimeTrackerService.run: seed the engine from the
initial observation, falling back to the Startup sentinel when the fetch
returned a null app name or raised. run always reaches this code with no
segment open (fresh construction), so the store is never touched here; the
updateActivity calls therefore cannot raise, and storeOk is passed as true. -/
def bootstrap (st : ServiceState) (f : InitialFetch) (now : Int) :
    Except ServiceState ServiceState :=
  match f with
  | .got (some a) title => updateActivity st (some a) title now true
  | .got none _ =>
    updateActivity st (some "Startup") (some "Initializing service") now true
  | .raised msg =>
    updateActivity st (some "Startup")
      (some ("Initialization error: " ++ msg)) now true

/-- The guarded last append of the finally-block of TimeTrackerService.run:
it fires only when self.running is still true (so only when the loop ended
by an exception or an interrupt, not after stop()), the start time is
truthy, last_app_name is non-null and the final duration is positive. An
append failure here propagates out of run, so the error value is the state
at the raise (running not yet cleared). -/
def finallyFlush (st : ServiceState) (endTime : Int) (storeOk : Bool) :
    Except ServiceState (List LoggedActivity) :=
  match st.running, st.startTime, st.lastApp with
  | true, some start, some lastA =>
    if start ≠ 0 then
      if endTime - start > 0 then
        if storeOk then
          .ok (st.log ++ [⟨some lastA, st.lastTitle, endTime - start,
            "general"⟩])
        else .error st
      else .ok st.log
    else .ok st.log
  | _, _, _ => .ok st.log

/-- The whole finally-block: the guarded flush above, then running is
cleared before run returns. -/
def finallyBlock (st : ServiceState) (endTime : Int) (storeOk : Bool) :
    Except ServiceState ServiceState :=
  match finallyFlush st endTime storeOk with
  | .error e => .error e
  | .ok log' => .ok { st with running := false, log := log' }

/-- The state at the top of TimeTrackerService.run, just after self.running
is set to true on a freshly constructed service. -/
def startState : ServiceState := { initState with running := true }

/-- TimeTrackerService.run in full: set running, bootstrap, loop, then the
finally-block at time endTime. A bootstrap error is unreachable (no open
segment yet) and collapsed to its carried state. The overall result is an
error exactly when the finally-block append raises, the only exception that
escapes run. -/

def run (f : InitialFetch) (bootNow : Int) (ticks : List Tick)
    (endTime : Int) (endStoreOk : Bool) : Except ServiceState ServiceState :=
  let st1 := match bootstrap startState f bootNow with
    | .ok s => s
    | .error s => s
  let st2 := runLoop st1 ticks
  finallyBlock st2 endTime endStoreOk

/-- Collapse an Except result to the state it carries, whichever side. -/
def exceptState : Except ServiceState ServiceState → ServiceState
  | .ok s => s
  | .error s => s

/-! ## Segment Store read path (src/core/data_store.py) -/

/-- One stored row of the activity_log table as far as get_activity_summary
reads it. timestamp is the DATETIME column as seconds since 1970-01-01 in
the storage timezone (UTC); app_name and window_title are nullable TEXT. -/
structure DBRow where
  timestamp : Nat
  app : Option String
  title : Option String
  duration : Int
  activityType : String
deriving DecidableEq, Repr

/-- The SQLite expression datetime(timestamp, +8 hours) on a
seconds-since-epoch value: add eight hours. -/
def shift8 (t : Nat) : Nat := t + 8 * 3600

/-- The SQLite date() of a seconds-since-epoch value, as a count of whole
calendar days since 1970-01-01. -/
def dayOfTimestamp (t : Nat) : Nat := t / 86400

/-- Days since 1970-01-01 of the civil date y-m-d (proleptic Gregorian,
valid for the modern dates that occur here). This interprets the
date(?) bound parameter of the YYYY-MM-DD filter string. -/
def daysFromCivil (y m d : Nat) : Nat :=
  let yAdj := if m ≤ 2 then y - 1 else y
  let era := yAdj / 400
  let yoe := yAdj - era * 400
  let mp := if m ≤ 2 then m + 9 else m - 3
  let doy := (153 * mp + 2) / 5 + d - 1
  let doe := yoe * 365 + yoe / 4 - yoe / 100 + doy
  era * 146097 + doe - 719468

/-- The WHERE clause of get_activity_summary:
date(datetime(timestamp, +8 hours)) = date(?), with the filter date given
as a y-m-d triple. -/
def matchesLocalDay (fy fm fd : Nat) (r : DBRow) : Bool :=
  dayOfTimestamp (shift8 r.timestamp) == daysFromCivil fy fm fd

/-- Insert a row into a list kept in descending timestamp order. -/
def insertDesc (r : DBRow) : List DBRow → List DBRow
  | [] => [r]
  | x :: xs =>
    if x.timestamp < r.timestamp then r :: x :: xs else x :: insertDesc r xs

/-- ORDER BY timestamp DESC as an insertion sort. Rows with equal
timestamps carry no defined relative order in the SQL; this realisation
keeps earlier list elements first. -/
def sortDesc : List DBRow → List DBRow
  | [] => []
  | r :: rs => insertDesc r (sortDesc rs)

/-- The SELECT list of get_activity_summary: every row is emitted with its
timestamp shifted by +8 hours; the remaining columns pass through. -/
def summarySelect (rows : List DBRow) : List DBRow :=
  rows.map fun r => { r with timestamp := shift8 r.timestamp }

/-- The optional WHERE clause of get_activity_summary: keep the rows whose
shifted timestamp falls on the filter calendar day (the WHERE recomputes
datetime(timestamp, +8 hours) from the stored column, the same value the
SELECT emits). -/
def summaryFilter (date : Option (Nat × Nat × Nat))
    (selected : List DBRow) : List DBRow :=
  match date with
  | some (fy, fm, fd) =>
    selected.filter fun r =>
      dayOfTimestamp r.timestamp == daysFromCivil fy fm fd
  | none => selected

/-- get_activity_summary(limit, date): SELECT with the +8 hour shift, the
optional local-day WHERE, ORDER BY timestamp DESC, LIMIT. The ORDER BY
names the aliased (shifted) column; as the shift is monotone this is
descending order of the stored timestamp as well. -/
def getActivitySummary (rows : List DBRow) (limit : Nat)
    (date : Option (Nat × Nat × Nat)) : List DBRow :=
  (sortDesc (summaryFilter date (summarySelect rows))).take limit

/-- Invariant carried by every state the engine can reach: every persisted
row has positive duration and non-null app and title, and the title of the open segment
is non-null whenever its app is. -/
def GoodState (st : ServiceState) : Prop :=
  (∀ row ∈ st.log, 0 < row.duration ∧ row.app.isSome ∧ row.title.isSome) ∧
  (st.lastApp.isSome → st.lastTitle.isSome)

theorem goodState_startState : GoodState startState := by
  constructor
  · intro row h
    simp [startState, initState] at h
  · intro h
    simp [startState, initState] at h

theorem closeSegment_error_eq {st : ServiceState} {now : Int} {storeOk : Bool}
    {e : ServiceState} (h : closeSegment st now storeOk = .error e) : e = st := by
  unfold closeSegment at h
  split at h
  · split_ifs at h
    all_goals simp at h
    exact h.symm
  · simp at h

theorem closeSegment_ok_rows {st : ServiceState} {now : Int} {storeOk : Bool}
    {log' : List LoggedActivity} (hg : GoodState st)
    (h : closeSegment st now storeOk = .ok log') :
    ∀ row ∈ log', 0 < row.duration ∧ row.app.isSome ∧ row.title.isSome := by
  unfold closeSegment at h
  split at h
  next start lastA heq1 heq2 =>
    split_ifs at h with h1 h2 h3
    · simp only [Except.ok.injEq] at h
      subst h
      intro row hrow
      rcases List.mem_append.mp hrow with hmem | hmem
      · exact hg.1 row hmem
      · simp at hmem
        subst hmem
        refine ⟨h2, by simp, ?_⟩
        have hsome : st.lastApp.isSome := by
          rw [heq2]
          rfl
        exact hg.2 hsome
    · simp only [Except.ok.injEq] at h
      exact h ▸ hg.1
    · simp only [Except.ok.injEq] at h
      exact h ▸ hg.1
  · simp only [Except.ok.injEq] at h
    exact h ▸ hg.1

theorem updateActivity_error_eq {st : ServiceState} {app title : Option String}
    {now : Int} {storeOk : Bool} {e : ServiceState}
    (h : updateActivity st app title now storeOk = .error e) : e = st := by
  unfold updateActivity at h
  cases hc : closeSegment st now storeOk with
  | error e2 => rw [hc] at h; simp at h; exact h ▸ closeSegment_error_eq hc
  | ok log' => rw [hc] at h; simp at h

theorem goodState_updateActivity {st : ServiceState} (app title : Option String)
    (now : Int) (storeOk : Bool) (hg : GoodState st) :
    GoodState (exceptState (updateActivity st app title now storeOk)) := by
  unfold updateActivity
  cases hc : closeSegment st now storeOk with
  | error e => simpa [exceptState, closeSegment_error_eq hc] using hg
  | ok log' =>
    constructor
    · intro row hrow
      simp only [exceptState] at hrow
      exact closeSegment_ok_rows hg hc row hrow
    · simp [exceptState]

theorem goodState_handleNoWindowInfo {st : ServiceState} (now : Int)
    (storeOk : Bool) (hg : GoodState st) :
    GoodState (exceptState (handleNoWindowInfo st now storeOk)) := by
  unfold handleNoWindowInfo
  split
  · exact goodState_updateActivity _ _ _ _ hg
  · exact hg

theorem goodState_processTick {st : ServiceState} (t : Tick) (hg : GoodState st) :
    GoodState (exceptState (processTick st t)) := by
  unfold processTick
  split
  · exact goodState_handleNoWindowInfo _ _ hg
  · split
    · exact goodState_updateActivity _ _ _ _ hg
    · exact hg

theorem goodState_applyStop {st : ServiceState} (t : Tick) (hg : GoodState st) :
    GoodState (applyStop st t) := by
  unfold applyStop
  split
  · exact ⟨hg.1, hg.2⟩
  · exact hg

theorem goodState_runLoop {st : ServiceState} (ts : List Tick)
    (hg : GoodState st) : GoodState (runLoop st ts) := by
  induction ts generalizing st with
  | nil => exact hg
  | cons t ts ih =>
    unfold runLoop
    split
    · cases hp : processTick st t with
      | ok st' =>
        have := goodState_processTick t hg
        rw [hp] at this
        exact ih (goodState_applyStop t this)
      | error st' =>
        have := goodState_processTick t hg
        rw [hp] at this
        exact this
    · exact hg

theorem goodState_bootstrap {st : ServiceState} (f : InitialFetch) (now : Int)
    (hg : GoodState st) :
    GoodState (exceptState (bootstrap st f now)) := by
  unfold bootstrap
  cases f with
  | got app title =>
    cases app with
    | none => exact goodState_updateActivity _ _ _ _ hg
    | some a => exact goodState_updateActivity _ _ _ _ hg
  | raised msg => exact goodState_updateActivity _ _ _ _ hg

theorem finallyFlush_error_eq {st : ServiceState} {endTime : Int}
    {storeOk : Bool} {e : ServiceState}
    (h : finallyFlush st endTime storeOk = .error e) : e = st := by
  unfold finallyFlush at h
  split at h
  · split_ifs at h
    all_goals simp at h
    exact h.symm
  · simp at h

theorem finallyFlush_ok_rows {st : ServiceState} {endTime : Int}
    {storeOk : Bool} {log' : List LoggedActivity} (hg : GoodState st)
    (h : finallyFlush st endTime storeOk = .ok log') :
    ∀ row ∈ log', 0 < row.duration ∧ row.app.isSome ∧ row.title.isSome := by
  unfold finallyFlush at h
  split at h
  next start lastA heq1 heq2 heq3 =>
    split_ifs at h with h1 h2 h3
    · simp only [Except.ok.injEq] at h
      subst h
      intro row hrow
      rcases List.mem_append.mp hrow with hmem | hmem
      · exact hg.1 row hmem
      · simp at hmem
        subst hmem
        refine ⟨h2, by simp, ?_⟩
        have hsome : st.lastApp.isSome := by
          rw [heq3]
          rfl
        exact hg.2 hsome
    · simp only [Except.ok.injEq] at h
      exact h ▸ hg.1
    · simp only [Except.ok.injEq] at h
      exact h ▸ hg.1
  · simp only [Except.ok.injEq] at h
    exact h ▸ hg.1

theorem goodState_finallyBlock {st : ServiceState} (endTime : Int)
    (storeOk : Bool) (hg : GoodState st) :
    GoodState (exceptState (finallyBlock st endTime storeOk)) := by
  unfold finallyBlock
  cases hc : finallyFlush st endTime storeOk with
  | error e => simpa [exceptState, finallyFlush_error_eq hc] using hg
  | ok log' =>
    constructor
    · intro row hrow
      simp only [exceptState] at hrow
      exact finallyFlush_ok_rows hg hc row hrow
    · intro hsome
      simp only [exceptState] at hsome ⊢
      exact hg.2 hsome

theorem goodState_run (f : InitialFetch) (bootNow : Int) (ticks : List Tick)
    (endTime : Int) (endStoreOk : Bool) :
    GoodState (exceptState (run f bootNow ticks endTime endStoreOk)) := by
  unfold run
  have hb := goodState_bootstrap f bootNow goodState_startState
  have h1 : GoodState (match bootstrap startState f bootNow with
      | .ok s => s | .error s => s) := by
    cases hc : bootstrap startState f bootNow with
    | ok s => rw [hc] at hb; exact hb
    | error s => rw [hc] at hb; exact hb
  exact goodState_finallyBlock _ _ (goodState_runLoop _ h1)

theorem handleNoWindowInfo_error_eq {st : ServiceState} {now : Int}
    {storeOk : Bool} {e : ServiceState}
    (h : handleNoWindowInfo st now storeOk = .error e) : e = st := by
  unfold handleNoWindowInfo at h
  split_ifs at h
  exact updateActivity_error_eq h

theorem processTick_error_eq {st : ServiceState} {t : Tick} {e : ServiceState}
    (h : processTick st t = .error e) : e = st := by
  unfold processTick at h
  split at h
  · exact handleNoWindowInfo_error_eq h
  · split_ifs at h
    exact updateActivity_error_eq h

/-- C1: when the loop exits because stop() cleared the running flag, the
finally-block guard (which requires self.running to still be true) skips the
final append, so the open segment of strictly positive elapsed time (here 10
seconds) is NOT persisted: the final log is empty. The second conjunct shows
the contrast the guard creates: the identical session ended by an interrupt
instead of stop() (tick list exhausted with running still true) does persist
that one final segment. -/
theorem stop_path_discards_open_segment :
    run (.got (some "App") (some "T")) 10
      [⟨some "App", some "T", 15, true, true⟩] 20 true =
      .ok { running := false, lastApp := some "App", lastTitle := some "T",
            startTime := some 10, log := [] } ∧
    run (.got (some "App") (some "T")) 10
      [⟨some "App", some "T", 15, true, false⟩] 20 true =
      .ok { running := false, lastApp := some "App", lastTitle := some "T",
            startTime := some 10,
            log := [⟨some "App", some "T", 10, "general"⟩] } := by
  constructor
  · rfl
  · rfl

/-- C2 counterexample: the store append raised while closing the segment at
the tick observing B at time 15; the claim says the loop still processes the
next tick (C at time 20), but the exception leaves the while loop, so the
final state still holds the A segment opened at 10 and nothing was ever
persisted; the C observation was never processed (endTime 10 makes the
finally-block duration zero, isolating the loop behaviour). -/
theorem append_failure_halts_loop_cex :
    run (.got (some "A") (some "T")) 10
      [⟨some "B", some "U", 15, false, false⟩,
       ⟨some "C", some "V", 20, true, false⟩] 10 true =
      .ok { running := false, lastApp := some "A", lastTitle := some "T",
            startTime := some 10, log := [] } := by
  rfl

/-- C2 amended: when the store append raises while a tick closes a segment,
the exception escapes the while loop, so no later tick is processed and the
loop ends with the engine state exactly as it was before the failing tick
(nothing persisted, identity unchanged); the exception itself is contained by
the handler around the loop in run (runLoop is total and just returns the
state), so nothing propagates out of run at this point. -/
theorem append_failure_contained (st : ServiceState) (t : Tick)
    (ts : List Tick) (st' : ServiceState) (hrun : st.running = true)
    (herr : processTick st t = .error st') :
    runLoop st (t :: ts) = st ∧ st' = st := by
  have hst := processTick_error_eq herr
  refine ⟨?_, hst⟩
  unfold runLoop
  rw [hrun, herr, hst]
  simp

theorem append_failure_contained_witness :
    runLoop
      { running := true, lastApp := some "A", lastTitle := some "T",
        startTime := some 10, log := [] }
      [⟨some "B", some "U", 15, false, false⟩,
       ⟨some "C", some "V", 20, true, false⟩] =
      { running := true, lastApp := some "A", lastTitle := some "T",
        startTime := some 10, log := [] } ∧
    ({ running := true, lastApp := some "A", lastTitle := some "T",
       startTime := some 10, log := [] } : ServiceState) =
      { running := true, lastApp := some "A", lastTitle := some "T",
        startTime := some 10, log := [] } :=
  append_failure_contained _ ⟨some "B", some "U", 15, false, false⟩
    [⟨some "C", some "V", 20, true, false⟩] _ rfl rfl

/-- C3: over any complete execution of run, every persisted row has
duration_seconds at least 0, and a closing segment whose computed duration is
0 is never persisted (no persisted duration equals 0). -/
theorem persisted_durations_positive (f : InitialFetch) (bootNow : Int)
    (ticks : List Tick) (endTime : Int) (endStoreOk : Bool) :
    ∀ row ∈ (exceptState (run f bootNow ticks endTime endStoreOk)).log,
      0 ≤ row.duration ∧ row.duration ≠ 0 := by
  intro row hrow
  have h := (goodState_run f bootNow ticks endTime endStoreOk).1 row hrow
  have h1 := h.1
  constructor
  · omega
  · omega

theorem persisted_durations_positive_witness :
    (0 : Int) ≤ 5 ∧ (5 : Int) ≠ 0 := by
  have hmem : (⟨some "A", some "T", 5, "general"⟩ : LoggedActivity) ∈
      (exceptState (run (.got (some "A") (some "T")) 10
        [⟨some "B", some "U", 15, true, false⟩] 15 true)).log := by
    decide
  exact persisted_durations_positive (.got (some "A") (some "T")) 10
    [⟨some "B", some "U", 15, true, false⟩] 15 true
    ⟨some "A", some "T", 5, "general"⟩ hmem

/-- C4: a degraded observation (null app_name) reaching the loop while the
open segment is already the Unknown/Error sentinel changes nothing: the
whole tick is the identity on the engine state (so no row is written); and
when the engine is in any other state, a degraded observation performs
exactly the transition that closes the current segment and opens the one
sentinel segment. -/
theorem degraded_absorbed_when_degraded (st : ServiceState) (t : Tick)
    (happ : t.app = none) :
    (st.lastApp = some "Unknown/Error" → processTick st t = .ok st) ∧
    (st.lastApp ≠ some "Unknown/Error" →
      processTick st t = updateActivity st (some "Unknown/Error")
        (some "Could not retrieve window info") t.now t.storeOk) := by
  constructor
  · intro hcur
    simp [processTick, happ, handleNoWindowInfo, hcur]
  · intro hcur
    simp [processTick, happ, handleNoWindowInfo, hcur]

theorem degraded_absorbed_when_degraded_witness :
    (({ running := true, lastApp := some "Unknown/Error",
        lastTitle := some "Could not retrieve window info",
        startTime := some 5, log := [] } : ServiceState).lastApp =
          some "Unknown/Error" →
      processTick
        { running := true, lastApp := some "Unknown/Error",
          lastTitle := some "Could not retrieve window info",
          startTime := some 5, log := [] }
        ⟨none, none, 9, true, false⟩ =
        .ok { running := true, lastApp := some "Unknown/Error",
              lastTitle := some "Could not retrieve window info",
              startTime := some 5, log := [] }) ∧
    (({ running := true, lastApp := some "Unknown/Error",
        lastTitle := some "Could not retrieve window info",
        startTime := some 5, log := [] } : ServiceState).lastApp ≠
          some "Unknown/Error" →
      processTick
        { running := true, lastApp := some "Unknown/Error",
          lastTitle := some "Could not retrieve window info",
          startTime := some 5, log := [] }
        ⟨none, none, 9, true, false⟩ =
        updateActivity
          { running := true, lastApp := some "Unknown/Error",
            lastTitle := some "Could not retrieve window info",
            startTime := some 5, log := [] }
          (some "Unknown/Error") (some "Could not retrieve window info")
          9 true) :=
  degraded_absorbed_when_degraded
    { running := true, lastApp := some "Unknown/Error",
      lastTitle := some "Could not retrieve window info",
      startTime := some 5, log := [] }
    ⟨none, none, 9, true, false⟩ rfl

/-- C5: a transition that closes an open segment (truthy start s, non-null
app, positive duration) persists exactly one row whose duration is now - s,
and opens the next segment at started_at = now; since s + (now - s) = now,
the new started_at equals the closed segment close time start + duration:
adjacent persisted segments tile the timeline with no engine-made gap. -/
theorem transition_tiles_timeline (st : ServiceState)
    (app title : Option String) (now s : Int) (a : String)
    (h1 : st.startTime = some s) (h2 : s ≠ 0) (h3 : st.lastApp = some a)
    (h4 : 0 < now - s) :
    ∃ st', updateActivity st app title now true = .ok st' ∧
      st'.log = st.log ++ [⟨some a, st.lastTitle, now - s, "general"⟩] ∧
      st'.startTime = some now ∧ s + (now - s) = now := by
  refine ⟨{ st with
            lastApp := some (app.getD "UnknownApp"),
            lastTitle := some (title.getD "UnknownTitle"),
            startTime := some now,
            log := st.log ++ [⟨some a, st.lastTitle, now - s, "general"⟩] },
          ?_, by simp, by simp, by omega⟩
  unfold updateActivity closeSegment
  rw [h1, h3]
  simp [h2, h4]

theorem transition_tiles_timeline_witness :
    ∃ st', updateActivity
        { running := true, lastApp := some "A", lastTitle := some "T",
          startTime := some 10, log := [] }
        (some "B") (some "U") 15 true = .ok st' ∧
      st'.log = [] ++ [⟨some "A", some "T", (15 : Int) - 10, "general"⟩] ∧
      st'.startTime = some 15 ∧ (10 : Int) + (15 - 10) = 15 :=
  transition_tiles_timeline
    { running := true, lastApp := some "A", lastTitle := some "T",
      startTime := some 10, log := [] }
    (some "B") (some "U") 15 10 "A" rfl (by decide) rfl (by decide)

/-- C8: an observation carrying exactly the open segment identity (same
non-null app_name, same window_title) leaves the engine state untouched and
writes nothing, and any number of consecutive such ticks still leaves the
state untouched. -/
theorem unchanged_observation_noop (st : ServiceState) (t : Tick) (a : String)
    (happ : t.app = some a) (hA : st.lastApp = some a)
    (hW : st.lastTitle = t.title) (hstop : t.stopAfter = false) :
    processTick st t = .ok st ∧
      ∀ n : Nat, runLoop st (List.replicate n t) = st := by
  have hpt : processTick st t = .ok st := by
    simp [processTick, happ, hA, hW]
  refine ⟨hpt, ?_⟩
  intro n
  induction n with
  | zero => rfl
  | succ n ih =>
    rw [List.replicate_succ]
    unfold runLoop
    rw [hpt]
    cases hr : st.running with
    | true =>
      simp only [if_true]
      have hstop2 : applyStop st t = st := by simp [applyStop, hstop]
      rw [hstop2]
      exact ih
    | false => simp

theorem unchanged_observation_noop_witness :
    processTick
      { running := true, lastApp := some "A", lastTitle := some "T",
        startTime := some 10, log := [] }
      ⟨some "A", some "T", 15, true, false⟩ =
      .ok { running := true, lastApp := some "A", lastTitle := some "T",
            startTime := some 10, log := [] } ∧
    ∀ n : Nat, runLoop
      { running := true, lastApp := some "A", lastTitle := some "T",
        startTime := some 10, log := [] }
      (List.replicate n ⟨some "A", some "T", 15, true, false⟩) =
      { running := true, lastApp := some "A", lastTitle := some "T",
        startTime := some 10, log := [] } :=
  unchanged_observation_noop
    { running := true, lastApp := some "A", lastTitle := some "T",
      startTime := some 10, log := [] }
    ⟨some "A", some "T", 15, true, false⟩ "A" rfl rfl rfl rfl

/-- C9: when the very first observation is degraded (null app name) or the
initial fetch raises, bootstrap does not fail: it opens the Startup sentinel
segment (started at now) and persists nothing (the log stays empty). -/
theorem degraded_bootstrap_startup (title : Option String) (msg : String)
    (now : Int) :
    bootstrap startState (.got none title) now =
      .ok { running := true, lastApp := some "Startup",
            lastTitle := some "Initializing service",
            startTime := some now, log := [] } ∧
    bootstrap startState (.raised msg) now =
      .ok { running := true, lastApp := some "Startup",
            lastTitle := some ("Initialization error: " ++ msg),
            startTime := some now, log := [] } := by
  constructor
  · rfl
  · rfl

theorem degraded_bootstrap_startup_witness :
    bootstrap startState (.got none (some "W")) 7 =
      .ok { running := true, lastApp := some "Startup",
            lastTitle := some "Initializing service",
            startTime := some 7, log := [] } ∧
    bootstrap startState (.raised "boom") 7 =
      .ok { running := true, lastApp := some "Startup",
            lastTitle := some ("Initialization error: " ++ "boom"),
            startTime := some 7, log := [] } :=
  degraded_bootstrap_startup (some "W") "boom" 7

/-- C10: every row run ever persists carries a non-null app_name and a
non-null window_title, and after any successful _update_activity the open
segment identity held by the engine is non-null in both fields (null inputs
having been replaced by the UnknownApp / UnknownTitle placeholders). -/
theorem persisted_identity_nonnull (f : InitialFetch) (bootNow : Int)
    (ticks : List Tick) (endTime : Int) (endStoreOk : Bool)
    (st : ServiceState) (app title : Option String) (now : Int)
    (storeOk : Bool) (st' : ServiceState) :
    (∀ row ∈ (exceptState (run f bootNow ticks endTime endStoreOk)).log,
      row.app.isSome ∧ row.title.isSome) ∧
    (updateActivity st app title now storeOk = .ok st' →
      st'.lastApp.isSome ∧ st'.lastTitle.isSome) := by
  constructor
  · intro row hrow
    have h := (goodState_run f bootNow ticks endTime endStoreOk).1 row hrow
    exact ⟨h.2.1, h.2.2⟩
  · intro hup
    unfold updateActivity at hup
    cases hc : closeSegment st now storeOk with
    | error e =>
      rw [hc] at hup
      simp at hup
    | ok log' =>
      rw [hc] at hup
      simp only [Except.ok.injEq] at hup
      rw [← hup]
      simp

theorem persisted_identity_nonnull_witness :
    (∀ row ∈ (exceptState (run (.got (some "A") (some "T")) 10 [] 10
        true)).log, row.app.isSome ∧ row.title.isSome) ∧
    ((some "UnknownApp" : Option String).isSome ∧
      (some "UnknownTitle" : Option String).isSome) := by
  have h := persisted_identity_nonnull (.got (some "A") (some "T")) 10 [] 10
    true startState none none 5 true
    { running := true, lastApp := some "UnknownApp",
      lastTitle := some "UnknownTitle", startTime := some 5, log := [] }
  exact ⟨h.1, h.2 rfl⟩

theorem mem_insertDesc {r x : DBRow} {l : List DBRow} :
    x ∈ insertDesc r l ↔ x = r ∨ x ∈ l := by
  induction l with
  | nil => simp [insertDesc]
  | cons y ys ih =>
    unfold insertDesc
    split
    · simp [List.mem_cons]
    · simp [List.mem_cons, ih]
      tauto

theorem mem_sortDesc {x : DBRow} {l : List DBRow} :
    x ∈ sortDesc l ↔ x ∈ l := by
  induction l with
  | nil => simp [sortDesc]
  | cons y ys ih =>
    unfold sortDesc
    rw [mem_insertDesc, ih]
    exact (List.mem_cons).symm

theorem length_insertDesc (r : DBRow) (l : List DBRow) :
    (insertDesc r l).length = l.length + 1 := by
  induction l with
  | nil => rfl
  | cons y ys ih =>
    unfold insertDesc
    split
    · rfl
    · simp [List.length_cons, ih]

theorem length_sortDesc (l : List DBRow) :
    (sortDesc l).length = l.length := by
  induction l with
  | nil => rfl
  | cons y ys ih =>
    unfold sortDesc
    rw [length_insertDesc, ih]
    rfl

theorem insertDesc_perm (r : DBRow) (l : List DBRow) :
    List.Perm (insertDesc r l) (r :: l) := by
  induction l with
  | nil => exact List.Perm.refl _
  | cons y ys ih =>
    unfold insertDesc
    split
    · exact List.Perm.refl _
    · exact List.Perm.trans (List.Perm.cons y ih) (List.Perm.swap r y ys)

theorem sortDesc_perm (l : List DBRow) : List.Perm (sortDesc l) l := by
  induction l with
  | nil => exact List.Perm.refl _
  | cons y ys ih =>
    unfold sortDesc
    exact List.Perm.trans (insertDesc_perm y (sortDesc ys)) (List.Perm.cons y ih)

theorem pairwise_insertDesc {r : DBRow} {l : List DBRow}
    (hl : l.Pairwise fun x y => y.timestamp ≤ x.timestamp) :
    (insertDesc r l).Pairwise fun x y => y.timestamp ≤ x.timestamp := by
  induction l with
  | nil => simp [insertDesc]
  | cons y ys ih =>
    obtain ⟨hy, hys⟩ := List.pairwise_cons.mp hl
    unfold insertDesc
    split
    next hlt =>
      refine List.Pairwise.cons ?_ hl
      intro z hz
      rcases List.mem_cons.mp hz with rfl | hz
      · exact le_of_lt hlt
      · exact le_trans (hy z hz) (le_of_lt hlt)
    next hge =>
      refine List.Pairwise.cons ?_ (ih hys)
      intro z hz
      rcases mem_insertDesc.mp hz with rfl | hz
      · exact le_of_not_lt hge
      · exact hy z hz

theorem pairwise_sortDesc (l : List DBRow) :
    (sortDesc l).Pairwise fun x y => y.timestamp ≤ x.timestamp := by
  induction l with
  | nil => simp [sortDesc]
  | cons y ys ih =>
    unfold sortDesc
    exact pairwise_insertDesc ih

/-- C6: with a date filter, every emitted row is a stored row whose
timestamp, shifted by +8 hours, falls on the filter calendar day, and the
emitted timestamp is exactly that shifted value; conversely (when the limit
does not truncate) every stored row whose shifted timestamp falls on the
filter day is emitted. In particular a row stored at 2024-02-29 16:30:00 is
returned by a filter for 2024-03-01 (see the witness). -/
theorem summary_date_filter_local_day (rows : List DBRow) (limit : Nat)
    (fy fm fd : Nat) :
    (∀ r ∈ getActivitySummary rows limit (some (fy, fm, fd)),
      ∃ s ∈ rows, r = { s with timestamp := shift8 s.timestamp } ∧
        dayOfTimestamp (shift8 s.timestamp) = daysFromCivil fy fm fd) ∧
    (rows.length ≤ limit →
      ∀ s ∈ rows,
        dayOfTimestamp (shift8 s.timestamp) = daysFromCivil fy fm fd →
        { s with timestamp := shift8 s.timestamp } ∈
          getActivitySummary rows limit (some (fy, fm, fd))) := by
  constructor
  · intro r hr
    unfold getActivitySummary at hr
    have hr2 := mem_sortDesc.mp ((List.take_sublist _ _).subset hr)
    unfold summaryFilter at hr2
    have hr3 := List.mem_filter.mp hr2
    obtain ⟨s, hs, hmap⟩ := List.mem_map.mp hr3.1
    refine ⟨s, hs, hmap.symm, ?_⟩
    have hday := hr3.2
    rw [← hmap] at hday
    simpa using hday
  · intro hlen s hs hday
    unfold getActivitySummary
    have hmem : { s with timestamp := shift8 s.timestamp } ∈
        summaryFilter (some (fy, fm, fd)) (summarySelect rows) := by
      unfold summaryFilter summarySelect
      refine List.mem_filter.mpr ⟨List.mem_map.mpr ⟨s, hs, rfl⟩, ?_⟩
      simpa using hday
    have hlen2 : (sortDesc (summaryFilter (some (fy, fm, fd))
        (summarySelect rows))).length ≤ limit := by
      rw [length_sortDesc]
      calc (summaryFilter (some (fy, fm, fd)) (summarySelect rows)).length
          ≤ (summarySelect rows).length := by
            unfold summaryFilter
            exact List.length_filter_le _ _
        _ = rows.length := List.length_map _ _
        _ ≤ limit := hlen
    rw [List.take_of_length_le hlen2]
    exact mem_sortDesc.mpr hmem

theorem summary_date_filter_local_day_witness :
    ({ timestamp := shift8 (daysFromCivil 2024 2 29 * 86400 + 59400),
       app := some "A", title := some "T", duration := 5,
       activityType := "general" } : DBRow) ∈
      getActivitySummary
        [{ timestamp := daysFromCivil 2024 2 29 * 86400 + 59400,
           app := some "A", title := some "T", duration := 5,
           activityType := "general" }] 10 (some (2024, 3, 1)) := by
  have h := summary_date_filter_local_day
    [{ timestamp := daysFromCivil 2024 2 29 * 86400 + 59400, app := some "A",
       title := some "T", duration := 5, activityType := "general" }]
    10 2024 3 1
  exact h.2 (by decide)
    { timestamp := daysFromCivil 2024 2 29 * 86400 + 59400, app := some "A",
      title := some "T", duration := 5, activityType := "general" }
    (by simp) (by decide)

/-- C7 counterexample: two rows recorded in the same second (an ordinary
occurrence, since the stored timestamp has one-second granularity) cannot be
strictly ordered by timestamp descending: whichever of the two comes first,
the result violates strict descent, so the strictness asserted by the claim fails. -/
theorem summary_strict_desc_cex :
    ¬ (getActivitySummary
        [{ timestamp := 100, app := some "a", title := none, duration := 1,
           activityType := "g" },
         { timestamp := 100, app := some "b", title := none, duration := 1,
           activityType := "g" }] 10 none).Pairwise
      (fun x y => y.timestamp < x.timestamp) := by
  decide

/-- C7 amended: for every database state and limit N, get_activity_summary
returns at most N rows, ordered by recorded timestamp in non-increasing
(descending) order; the descent is strict whenever the stored timestamps are
pairwise distinct. -/
theorem summary_limit_and_desc_order (rows : List DBRow) (limit : Nat)
    (date : Option (Nat × Nat × Nat)) :
    (getActivitySummary rows limit date).length ≤ limit ∧
    (getActivitySummary rows limit date).Pairwise
      (fun x y => y.timestamp ≤ x.timestamp) ∧
    ((rows.map DBRow.timestamp).Nodup →
      (getActivitySummary rows limit date).Pairwise
        (fun x y => y.timestamp < x.timestamp)) := by
  unfold getActivitySummary
  have hsub : (summaryFilter date (summarySelect rows)).Sublist
      (summarySelect rows) := by
    unfold summaryFilter
    rcases date with _ | ⟨fy, fm, fd⟩
    · exact List.Sublist.refl _
    · exact List.filter_sublist _
  refine ⟨List.length_take_le _ _, ?_, ?_⟩
  · exact (pairwise_sortDesc _).take
  · intro hnodup
    have hsel_nodup : ((summarySelect rows).map DBRow.timestamp).Nodup := by
      unfold summarySelect
      rw [List.map_map]
      have hcomp : (DBRow.timestamp ∘ fun r =>
          { r with timestamp := shift8 r.timestamp }) =
          (fun t => t + 8 * 3600) ∘ DBRow.timestamp := by
        funext r
        rfl
      rw [hcomp, ← List.map_map]
      exact List.Nodup.map (fun a b hab => by omega) hnodup
    have hfil_nodup :
        ((summaryFilter date (summarySelect rows)).map DBRow.timestamp).Nodup :=
      List.Nodup.sublist (List.Sublist.map _ hsub) hsel_nodup
    have hsort_nodup : ((sortDesc (summaryFilter date
        (summarySelect rows))).map DBRow.timestamp).Nodup :=
      (List.Perm.nodup_iff (List.Perm.map _ (sortDesc_perm _))).mpr hfil_nodup
    have htake_nodup : (((sortDesc (summaryFilter date
        (summarySelect rows))).take limit).map DBRow.timestamp).Nodup :=
      List.Nodup.sublist (List.Sublist.map _ (List.take_sublist _ _))
        hsort_nodup
    have hne : ((sortDesc (summaryFilter date
        (summarySelect rows))).take limit).Pairwise
        (fun x y => x.timestamp ≠ y.timestamp) :=
      (List.pairwise_map).mp htake_nodup
    have hle : ((sortDesc (summaryFilter date
        (summarySelect rows))).take limit).Pairwise
        (fun x y => y.timestamp ≤ x.timestamp) :=
      (pairwise_sortDesc _).take
    exact (hle.and hne).imp fun h => lt_of_le_of_ne h.1 (Ne.symm h.2)

theorem summary_limit_and_desc_order_witness :
    (getActivitySummary
      [{ timestamp := 200, app := some "a", title := none, duration := 1,
         activityType := "g" },
       { timestamp := 100, app := some "b", title := none, duration := 1,
         activityType := "g" }] 5 none).length ≤ 5 ∧
    (getActivitySummary
      [{ timestamp := 200, app := some "a", title := none, duration := 1,
         activityType := "g" },
       { timestamp := 100, app := some "b", title := none, duration := 1,
         activityType := "g" }] 5 none).Pairwise
      (fun x y => y.timestamp ≤ x.timestamp) ∧
    (getActivitySummary
      [{ timestamp := 200, app := some "a", title := none, duration := 1,
         activityType := "g" },
       { timestamp := 100, app := some "b", title := none, duration := 1,
         activityType := "g" }] 5 none).Pairwise
      (fun x y => y.timestamp < x.timestamp) := by
  have h := summary_limit_and_desc_order
    [{ timestamp := 200, app := some "a", title := none, duration := 1,
       activityType := "g" },
     { timestamp := 100, app := some "b", title := none, duration := 1,
       activityType := "g" }] 5 none
  exact ⟨h.1, h.2.1, h.2.2 (by decide)⟩

end TimeTracker
